import Mathlib

/-
Verification of the fuel-log core (src/fuellog.py): cycle reconstruction
(`cycles`), overall statistics (`stats`) and monthly summaries (`month`).
Records and cycles are embedded as Lean structures; Python floats are
modelled as exact rationals, Python `None` as `Option.none`.
-/

attribute [local semireducible] Rat.add Rat.mul Rat.sub Rat.inv Rat.ofScientific

namespace FuelLog

/-- A calendar date as produced by `datetime.date` (only year/month/day,
no time component; the `month` command compares year and month). -/
structure Date where
  year : Nat
  month : Nat
  day : Nat
deriving DecidableEq

/-- One row of the fuel log after `read_rows` has typed the fields
(fuellog.py lines 69-85): date, odometer, liters, price per liter,
full-fill marker and free-text notes. -/
structure FuelRecord where
  date : Date
  odometer_km : ℚ
  liters : ℚ
  price_per_liter_sek : ℚ
  full_fill : Bool
  notes : String
deriving DecidableEq

/-- The dict appended by `cycles` in fuellog.py lines 125-136.  The two
rate fields are `None` (here `Option.none`) when the guard on line 119
fails. -/
structure Cycle where
  start_date : Date
  end_date : Date
  start_odo : ℚ
  end_odo : ℚ
  distance_km : ℚ
  liters_used : ℚ
  l_per_100km : Option ℚ
  cost_total_sek : ℚ
  cost_per_km_sek : Option ℚ
  fills_count : Nat
deriving DecidableEq

/-- Closing a cycle, fuellog.py lines 112-136.  `anchor` is
`cycle_rows[0]` (the previous full fill) and `rest` is `cycle_rows[1:]`
(all partial fills after the anchor followed by the closing full fill),
so `rest.getLastD anchor` is `cycle_rows[-1]`. -/
def mkCycle (anchor : FuelRecord) (rest : List FuelRecord) : Cycle :=
  let start := anchor
  let stop := rest.getLastD anchor
  let liters_used := (rest.map (fun x => x.liters)).sum
  let distance := stop.odometer_km - start.odometer_km
  let total_cost := (rest.map (fun x => x.liters * x.price_per_liter_sek)).sum
  let l_per_100 : Option ℚ :=
    if 0 < distance ∧ 0 < liters_used then some (liters_used / distance * 100) else none
  let cost_per_km : Option ℚ :=
    if 0 < distance ∧ 0 < liters_used then some (total_cost / distance) else none
  { start_date := start.date
    end_date := stop.date
    start_odo := start.odometer_km
    end_odo := stop.odometer_km
    distance_km := distance
    liters_used := liters_used
    l_per_100km := l_per_100
    cost_total_sek := total_cost
    cost_per_km_sek := cost_per_km
    fills_count := rest.length }

/-- The loop state of `cycles` (fuellog.py lines 101-103): the cycles
emitted so far, the rolling buffer, and the last full fill seen. -/
structure RecoState where
  cycles : List Cycle
  buffer : List FuelRecord
  last_full : Option FuelRecord
deriving DecidableEq

/-- One iteration of the loop in fuellog.py lines 104-139.  The buffer
always ends in `r` after the append on line 105, so it is nonempty and
`headD r` is its true head (`cycle_rows[0]`); `tail` is `cycle_rows[1:]`. -/
def cyclesStep (st : RecoState) (r : FuelRecord) : RecoState :=
  let buffer := st.buffer ++ [r]
  if r.full_fill then
    match st.last_full with
    | none => { cycles := st.cycles, buffer := [r], last_full := some r }
    | some _ =>
        { cycles := st.cycles ++ [mkCycle (buffer.headD r) buffer.tail]
          buffer := [r]
          last_full := some r }
  else
    { cycles := st.cycles, buffer := buffer, last_full := st.last_full }

/-- `cycles(rows)`, fuellog.py lines 99-140: split the ordered rows into
tank-to-tank cycles bounded by full fills. -/
def cycles (rows : List FuelRecord) : List Cycle :=
  (rows.foldl cyclesStep ⟨[], [], none⟩).cycles

/-- Recursive presentation of the loop once an anchor `a` (the last full
fill) has been seen, with `mids` the non-full records accumulated since
the anchor.  Proved equal to the `foldl` form below. -/
def cyclesFrom (a : FuelRecord) (mids : List FuelRecord) : List FuelRecord → List Cycle
  | [] => []
  | r :: rest =>
    if r.full_fill then mkCycle a (mids ++ [r]) :: cyclesFrom r [] rest
    else cyclesFrom a (mids ++ [r]) rest

/-- Recursive presentation of the whole loop: records before the first
full fill are skipped. -/
def cyclesRec : List FuelRecord → List Cycle
  | [] => []
  | r :: rest => if r.full_fill then cyclesFrom r [] rest else cyclesRec rest

/-- Outcome of the computation in `stats` (fuellog.py lines 142-167).
The two crash constructors model the unhandled exceptions Python raises:
`crashNoneFormat` for the `TypeError` on line 156 when the latest cycle's
`l_per_100km` is `None` (formatting `None` with `:.2f`), and
`crashZeroDiv` for the `ZeroDivisionError` on line 160 when the filtered
cycle list `v` is empty. -/
inductive StatsOutcome where
  | tooFewRows : StatsOutcome
  | noCycles : StatsOutcome
  | crashNoneFormat : StatsOutcome
  | crashZeroDiv : StatsOutcome
  | ok (latest : Cycle) (avg_l100 avg_cost_km total_km total_l total_cost : ℚ) : StatsOutcome
deriving DecidableEq

/-- The computation performed by `stats` (fuellog.py lines 142-167):
guard on fewer than two rows (line 144) and on an empty cycle list
(line 148), take the latest cycle `cs[-1]` (line 152), then average the
rates and sum the totals over `v`, the cycles whose `l_per_100km` is not
`None` (lines 159-164).  Python's `is not None` test is `Option.isSome`;
`getD 0` reads the value known to be present. -/
def stats_core (rows : List FuelRecord) : StatsOutcome :=
  if rows.length < 2 then .tooFewRows
  else
    let cs := cycles rows
    match cs.getLast? with
    | none => .noCycles
    | some latest =>
      if latest.l_per_100km = none then .crashNoneFormat
      else
        let v := cs.filter (fun c => c.l_per_100km.isSome)
        if v.length = 0 then .crashZeroDiv
        else
          .ok latest
            ((v.map (fun c => c.l_per_100km.getD 0)).sum / (v.length : ℚ))
            ((v.map (fun c => c.cost_per_km_sek.getD 0)).sum / (v.length : ℚ))
            ((v.map (fun c => c.distance_km)).sum)
            ((v.map (fun c => c.liters_used)).sum)
            ((v.map (fun c => c.cost_total_sek)).sum)

/-- The cycles with a defined consumption rate: the list `v` of
fuellog.py line 159, written as a filter over the reconstructed cycles. -/
def definedCycles (rows : List FuelRecord) : List Cycle :=
  (cycles rows).filter (fun c => c.l_per_100km.isSome)

/-- The per-month accumulation of `month` (fuellog.py lines 180-187):
liters, cost and fill count summed over every row whose date falls in
year `y`, month `m`. -/
def month_core (rows : List FuelRecord) (y m : Nat) : ℚ × ℚ × Nat :=
  rows.foldl
    (fun acc r =>
      if r.date.year = y ∧ r.date.month = m then
        (acc.1 + r.liters, acc.2.1 + r.liters * r.price_per_liter_sek, acc.2.2 + 1)
      else acc)
    (0, 0, 0)

/-- The distance estimate of `month` (fuellog.py line 192): sum of
`distance_km` over the cycles whose `end_date` falls in the target
month. -/
def month_km_estimate (rows : List FuelRecord) (y m : Nat) : ℚ :=
  (cycles rows).foldl
    (fun acc c =>
      if c.end_date.year = y ∧ c.end_date.month = m then acc + c.distance_km else acc)
    0

-- sanity checks (spec end-to-end example 1)
def exDate1 : Date := ⟨2025, 1, 1⟩
def exDate2 : Date := ⟨2025, 1, 15⟩
def exDate3 : Date := ⟨2025, 2, 1⟩

def exRows1 : List FuelRecord :=
  [ ⟨exDate1, 1000, 40, 10, true, ""⟩,
    ⟨exDate2, 1050, 5, 10, false, ""⟩,
    ⟨exDate3, 1500, 35, 10, true, ""⟩ ]

example :
    cycles exRows1 =
      [ { start_date := exDate1, end_date := exDate3, start_odo := 1000, end_odo := 1500,
          distance_km := 500, liters_used := 40, l_per_100km := some 8,
          cost_total_sek := 400, cost_per_km_sek := some (4/5), fills_count := 2 } ] := by
  decide

/-- Spec end-to-end example 3: two full fills at the same odometer. -/
def rowsSameOdo : List FuelRecord :=
  [ ⟨⟨2025, 1, 1⟩, 1000, 40, 19, true, ""⟩,
    ⟨⟨2025, 1, 2⟩, 1000, 5, 19, true, ""⟩ ]

/-- Spec end-to-end example 4: second full fill at a smaller odometer. -/
def rowsRollback : List FuelRecord :=
  [ ⟨⟨2025, 1, 1⟩, 1000, 40, 19, true, ""⟩,
    ⟨⟨2025, 1, 2⟩, 900, 5, 19, true, ""⟩ ]

/-- Three full fills at increasing odometer, giving two cycles with
defined rates (used to exercise the aggregate and the chain). -/
def rowsThreeFulls : List FuelRecord :=
  [ ⟨⟨2025, 1, 1⟩, 0, 10, 1, true, ""⟩,
    ⟨⟨2025, 1, 10⟩, 100, 20, 2, true, ""⟩,
    ⟨⟨2025, 2, 5⟩, 300, 30, 1, true, ""⟩ ]

example : (cycles rowsSameOdo).length = 1 := by decide
example : (cycles rowsRollback).map (fun c => c.distance_km) = [-100] := by decide
example : stats_core rowsSameOdo = StatsOutcome.crashNoneFormat := by decide
example : (cycles rowsThreeFulls).length = 2 := by decide

/-! ### The `foldl` loop agrees with the recursive presentation -/

lemma cyclesStep_anchored_full (cs : List Cycle) (b : FuelRecord) (mids : List FuelRecord)
    (x r : FuelRecord) (hr : r.full_fill = true) :
    cyclesStep ⟨cs, b :: mids, some x⟩ r =
      ⟨cs ++ [mkCycle b (mids ++ [r])], [r], some r⟩ := by
  simp [cyclesStep, hr]

lemma cyclesStep_anchored_notfull (cs : List Cycle) (b : FuelRecord) (mids : List FuelRecord)
    (x r : FuelRecord) (hr : r.full_fill = false) :
    cyclesStep ⟨cs, b :: mids, some x⟩ r = ⟨cs, b :: (mids ++ [r]), some x⟩ := by
  simp [cyclesStep, hr]

lemma cyclesStep_none_full (cs : List Cycle) (buf : List FuelRecord) (r : FuelRecord)
    (hr : r.full_fill = true) :
    cyclesStep ⟨cs, buf, none⟩ r = ⟨cs, [r], some r⟩ := by
  simp [cyclesStep, hr]

lemma cyclesStep_none_notfull (cs : List Cycle) (buf : List FuelRecord) (r : FuelRecord)
    (hr : r.full_fill = false) :
    cyclesStep ⟨cs, buf, none⟩ r = ⟨cs, buf ++ [r], none⟩ := by
  simp [cyclesStep, hr]

lemma foldl_cycles_anchored (rest : List FuelRecord) :
    ∀ (cs : List Cycle) (b : FuelRecord) (mids : List FuelRecord) (x : FuelRecord),
      (List.foldl cyclesStep ⟨cs, b :: mids, some x⟩ rest).cycles =
        cs ++ cyclesFrom b mids rest := by
  induction rest with
  | nil => intro cs b mids x; simp [cyclesFrom]
  | cons r rest ih =>
    intro cs b mids x
    by_cases hr : r.full_fill
    · rw [List.foldl_cons, cyclesStep_anchored_full cs b mids x r hr, ih, cyclesFrom, if_pos hr]
      simp
    · rw [List.foldl_cons,
        cyclesStep_anchored_notfull cs b mids x r (Bool.of_not_eq_true hr), ih, cyclesFrom,
        if_neg hr]

lemma foldl_cycles_none (rest : List FuelRecord) :
    ∀ (cs : List Cycle) (buf : List FuelRecord),
      (List.foldl cyclesStep ⟨cs, buf, none⟩ rest).cycles = cs ++ cyclesRec rest := by
  induction rest with
  | nil => intro cs buf; simp [cyclesRec]
  | cons r rest ih =>
    intro cs buf
    by_cases hr : r.full_fill
    · rw [List.foldl_cons, cyclesStep_none_full cs buf r hr,
        foldl_cycles_anchored rest cs r [] r, cyclesRec, if_pos hr]
    · rw [List.foldl_cons, cyclesStep_none_notfull cs buf r (Bool.of_not_eq_true hr), ih,
        cyclesRec, if_neg hr]

lemma cycles_eq (rows : List FuelRecord) : cycles rows = cyclesRec rows := by
  simpa [cycles] using foldl_cycles_none rows [] []

/-! ### Cycle count (claim C1) -/

lemma length_cyclesFrom (rest : List FuelRecord) :
    ∀ (a : FuelRecord) (mids : List FuelRecord),
      (cyclesFrom a mids rest).length = rest.countP (fun r => r.full_fill) := by
  induction rest with
  | nil => intro a mids; simp [cyclesFrom]
  | cons r rest ih =>
    intro a mids
    by_cases hr : r.full_fill
    · simp [cyclesFrom, hr, List.countP_cons, ih]
    · simp [cyclesFrom, hr, List.countP_cons, ih]

lemma length_cyclesRec (rows : List FuelRecord) :
    (cyclesRec rows).length = rows.countP (fun r => r.full_fill) - 1 := by
  induction rows with
  | nil => simp [cyclesRec]
  | cons r rest ih =>
    by_cases hr : r.full_fill
    · simp [cyclesRec, hr, List.countP_cons, length_cyclesFrom]
    · simp [cyclesRec, hr, List.countP_cons, ih]

/-! ### Every emitted cycle comes from a segment between consecutive full fills -/

/-- `s` and `e` are consecutive full fills of `rows`, with exactly the
non-full records `ms` strictly between them. -/
def CycleBounds (rows : List FuelRecord) (s : FuelRecord) (ms : List FuelRecord)
    (e : FuelRecord) : Prop :=
  (∃ pre post, rows = pre ++ s :: (ms ++ e :: post)) ∧
    s.full_fill = true ∧ e.full_fill = true ∧ ∀ x ∈ ms, x.full_fill = false

lemma cyclesFrom_bounds (rest : List FuelRecord) :
    ∀ (rows pre : List FuelRecord) (a : FuelRecord) (mids : List FuelRecord),
      rows = pre ++ a :: (mids ++ rest) → a.full_fill = true →
      (∀ x ∈ mids, x.full_fill = false) →
      ∀ c ∈ cyclesFrom a mids rest,
        ∃ s ms e, CycleBounds rows s ms e ∧ c = mkCycle s (ms ++ [e]) := by
  induction rest with
  | nil => intro rows pre a mids hrows ha hmids c hc; simp [cyclesFrom] at hc
  | cons r rest ih =>
    intro rows pre a mids hrows ha hmids c hc
    by_cases hr : r.full_fill
    · rw [cyclesFrom, if_pos hr] at hc
      rcases List.mem_cons.mp hc with hceq | hc
      · exact ⟨a, mids, r, ⟨⟨pre, rest, hrows⟩, ha, hr, hmids⟩, hceq⟩
      · refine ih rows (pre ++ a :: mids) r [] ?_ hr (by simp) c hc
        rw [hrows]; simp
    · rw [cyclesFrom, if_neg hr] at hc
      refine ih rows pre a (mids ++ [r]) ?_ ha ?_ c hc
      · rw [hrows]; simp
      · intro x hx
        rcases List.mem_append.mp hx with h | h
        · exact hmids x h
        · have hx2 : x = r := by simpa using h
          rw [hx2]
          exact Bool.of_not_eq_true hr

lemma cyclesRec_bounds (rows : List FuelRecord) :
    ∀ c ∈ cyclesRec rows,
      ∃ s ms e, CycleBounds rows s ms e ∧ c = mkCycle s (ms ++ [e]) := by
  induction rows with
  | nil => intro c hc; simp [cyclesRec] at hc
  | cons r rest ih =>
    intro c hc
    by_cases hr : r.full_fill
    · rw [cyclesRec, if_pos hr] at hc
      exact cyclesFrom_bounds rest (r :: rest) [] r [] (by simp) hr (by simp) c hc
    · rw [cyclesRec, if_neg hr] at hc
      obtain ⟨s, ms, e, ⟨⟨pre, post, hdecomp⟩, hs, he, hms⟩, hceq⟩ := ih c hc
      exact ⟨s, ms, e, ⟨⟨r :: pre, post, by rw [hdecomp]; rfl⟩, hs, he, hms⟩, hceq⟩

lemma cycles_bounds (rows : List FuelRecord) :
    ∀ c ∈ cycles rows,
      ∃ s ms e, CycleBounds rows s ms e ∧ c = mkCycle s (ms ++ [e]) := by
  rw [cycles_eq]; exact cyclesRec_bounds rows

lemma getLastD_append_single (l : List FuelRecord) (e d : FuelRecord) :
    (l ++ [e]).getLastD d = e := by
  induction l generalizing d with
  | nil => rfl
  | cons a l ih => rw [List.cons_append, List.getLastD_cons, ih]

lemma mkCycle_fields (s : FuelRecord) (ms : List FuelRecord) (e : FuelRecord) :
    (mkCycle s (ms ++ [e])).start_date = s.date ∧
      (mkCycle s (ms ++ [e])).start_odo = s.odometer_km ∧
      (mkCycle s (ms ++ [e])).end_date = e.date ∧
      (mkCycle s (ms ++ [e])).end_odo = e.odometer_km ∧
      (mkCycle s (ms ++ [e])).distance_km = e.odometer_km - s.odometer_km ∧
      (mkCycle s (ms ++ [e])).liters_used = ((ms ++ [e]).map (fun x => x.liters)).sum ∧
      (mkCycle s (ms ++ [e])).cost_total_sek =
        ((ms ++ [e]).map (fun x => x.liters * x.price_per_liter_sek)).sum ∧
      (mkCycle s (ms ++ [e])).fills_count = ms.length + 1 := by
  simp [mkCycle, getLastD_append_single]

lemma mkCycle_rates (s : FuelRecord) (rest : List FuelRecord) :
    ((0 < (mkCycle s rest).distance_km ∧ 0 < (mkCycle s rest).liters_used) →
        (mkCycle s rest).l_per_100km =
            some ((mkCycle s rest).liters_used / (mkCycle s rest).distance_km * 100) ∧
          (mkCycle s rest).cost_per_km_sek =
            some ((mkCycle s rest).cost_total_sek / (mkCycle s rest).distance_km)) ∧
      (¬(0 < (mkCycle s rest).distance_km ∧ 0 < (mkCycle s rest).liters_used) →
        (mkCycle s rest).l_per_100km = none ∧ (mkCycle s rest).cost_per_km_sek = none) := by
  by_cases h :
      0 < (rest.getLastD s).odometer_km - s.odometer_km ∧
        0 < (rest.map (fun x => x.liters)).sum
  · simp [mkCycle, h]
  · simp [mkCycle, h]

/-- The single cycle reconstructed from `exRows1`. -/
def exCycle1 : Cycle :=
  { start_date := exDate1, end_date := exDate3, start_odo := 1000, end_odo := 1500,
    distance_km := 500, liters_used := 40, l_per_100km := some 8,
    cost_total_sek := 400, cost_per_km_sek := some (4/5), fills_count := 2 }

/-- The single cycle reconstructed from `rowsRollback`. -/
def rollbackCycle : Cycle :=
  { start_date := ⟨2025, 1, 1⟩, end_date := ⟨2025, 1, 2⟩, start_odo := 1000, end_odo := 900,
    distance_km := -100, liters_used := 5, l_per_100km := none,
    cost_total_sek := 95, cost_per_km_sek := none, fills_count := 1 }

/-- The single cycle reconstructed from `rowsSameOdo`. -/
def sameOdoCycle : Cycle :=
  { start_date := ⟨2025, 1, 1⟩, end_date := ⟨2025, 1, 2⟩, start_odo := 1000, end_odo := 1000,
    distance_km := 0, liters_used := 5, l_per_100km := none,
    cost_total_sek := 95, cost_per_km_sek := none, fills_count := 1 }

example : cycles rowsRollback = [rollbackCycle] := by decide
example : cycles rowsSameOdo = [sameOdoCycle] := by decide

/-- Claim C2: every emitted cycle is bounded by two consecutive full fills
`s`, `e` of the input; its `liters_used` is the sum of `liters` over the
records strictly after `s` up to and including `e` (the anchor `s` itself
excluded), and `cost_total_sek` is the sum of `liters * price` over that
same record set. -/
theorem cycles_sums (rows : List FuelRecord) :
    ∀ c ∈ cycles rows,
      ∃ s ms e, CycleBounds rows s ms e ∧
        c.start_date = s.date ∧ c.start_odo = s.odometer_km ∧
        c.end_date = e.date ∧ c.end_odo = e.odometer_km ∧
        c.liters_used = ((ms ++ [e]).map (fun x => x.liters)).sum ∧
        c.cost_total_sek = ((ms ++ [e]).map (fun x => x.liters * x.price_per_liter_sek)).sum := by
  intro c hc
  obtain ⟨s, ms, e, hb, hceq⟩ := cycles_bounds rows c hc
  subst hceq
  obtain ⟨h1, h2, h3, h4, _, h6, h7, _⟩ := mkCycle_fields s ms e
  exact ⟨s, ms, e, hb, h1, h2, h3, h4, h6, h7⟩

/-- Witness for claim C2 at the spec's end-to-end example 1. -/
theorem cycles_sums_witness :
    ∃ s ms e, CycleBounds exRows1 s ms e ∧
      exCycle1.start_date = s.date ∧ exCycle1.start_odo = s.odometer_km ∧
      exCycle1.end_date = e.date ∧ exCycle1.end_odo = e.odometer_km ∧
      exCycle1.liters_used = ((ms ++ [e]).map (fun x => x.liters)).sum ∧
      exCycle1.cost_total_sek =
        ((ms ++ [e]).map (fun x => x.liters * x.price_per_liter_sek)).sum :=
  cycles_sums exRows1 exCycle1 (by decide)

/-- Claim C3: an emitted cycle's rates are exactly
`liters_used / distance * 100` and `cost_total / distance` when
`distance > 0` and `liters_used > 0`, and both are the explicit
unavailable value `none` otherwise; in particular any cycle with
`distance_km ≤ 0` has both rates unavailable. -/
theorem cycles_rates (rows : List FuelRecord) :
    ∀ c ∈ cycles rows,
      ((0 < c.distance_km ∧ 0 < c.liters_used) →
          c.l_per_100km = some (c.liters_used / c.distance_km * 100) ∧
            c.cost_per_km_sek = some (c.cost_total_sek / c.distance_km)) ∧
        (¬(0 < c.distance_km ∧ 0 < c.liters_used) →
          c.l_per_100km = none ∧ c.cost_per_km_sek = none) ∧
        (c.distance_km ≤ 0 → c.l_per_100km = none ∧ c.cost_per_km_sek = none) := by
  intro c hc
  obtain ⟨s, ms, e, _, hceq⟩ := cycles_bounds rows c hc
  subst hceq
  have h := mkCycle_rates s (ms ++ [e])
  refine ⟨h.1, h.2, ?_⟩
  intro hd
  exact h.2 (fun hcon => absurd hd (not_le.mpr hcon.1))

/-- Witness for claim C3: the defined-rate branch at example 1 and the
unavailable branch at the rollback example. -/
theorem cycles_rates_witness :
    (exCycle1.l_per_100km = some (exCycle1.liters_used / exCycle1.distance_km * 100) ∧
        exCycle1.cost_per_km_sek = some (exCycle1.cost_total_sek / exCycle1.distance_km)) ∧
      (rollbackCycle.l_per_100km = none ∧ rollbackCycle.cost_per_km_sek = none) :=
  ⟨(cycles_rates exRows1 exCycle1 (by decide)).1 (by decide),
    (cycles_rates rowsRollback rollbackCycle (by decide)).2.2 (by decide)⟩

/-- Counterexample to claim C4: the code attaches no data-quality flag to
a non-monotonic cycle.  The cycle emitted for the rollback input
(odometer `1000` then `900`) and the cycle emitted for the ordinary
degenerate input (odometer `1000` twice) agree on every field except the
`end_odo`/`distance_km` numbers themselves — identical dates, liters,
costs, fill count, and identical unavailable rate markers — so the
emitted value carries no distinguishable data-quality signal beyond the
sign of `distance_km`. -/
theorem cycles_no_flag_counterexample :
    cycles rowsRollback = [rollbackCycle] ∧
      cycles rowsSameOdo = [sameOdoCycle] ∧
      rollbackCycle.distance_km = -100 ∧ rollbackCycle.distance_km < 0 ∧
      sameOdoCycle.distance_km = 0 ∧
      rollbackCycle.l_per_100km = none ∧ rollbackCycle.cost_per_km_sek = none ∧
      rollbackCycle.start_date = sameOdoCycle.start_date ∧
      rollbackCycle.end_date = sameOdoCycle.end_date ∧
      rollbackCycle.start_odo = sameOdoCycle.start_odo ∧
      rollbackCycle.liters_used = sameOdoCycle.liters_used ∧
      rollbackCycle.cost_total_sek = sameOdoCycle.cost_total_sek ∧
      rollbackCycle.l_per_100km = sameOdoCycle.l_per_100km ∧
      rollbackCycle.cost_per_km_sek = sameOdoCycle.cost_per_km_sek ∧
      rollbackCycle.fills_count = sameOdoCycle.fills_count := by
  decide

/-- Claim C4 as amended: every emitted cycle with negative distance has
both rate fields unavailable (`none`); no dedicated data-quality flag is
present on the cycle — the condition is visible only through
`distance_km` itself being negative. -/
theorem cycles_negative_distance (rows : List FuelRecord) :
    ∀ c ∈ cycles rows, c.distance_km < 0 →
      c.l_per_100km = none ∧ c.cost_per_km_sek = none := by
  intro c hc hneg
  obtain ⟨s, ms, e, _, hceq⟩ := cycles_bounds rows c hc
  subst hceq
  exact (mkCycle_rates s (ms ++ [e])).2
    (fun hcon => absurd hneg (not_lt.mpr (le_of_lt hcon.1)))

/-- Witness for the amended claim C4 at the rollback input. -/
theorem cycles_negative_distance_witness :
    rollbackCycle.l_per_100km = none ∧ rollbackCycle.cost_per_km_sek = none :=
  cycles_negative_distance rowsRollback rollbackCycle (by decide) (by decide)

/-- Claim C9: every emitted cycle's `fills_count` is the number of records
in its own bounding record set excluding the starting full fill: the
bounding segment is pinned to the cycle through all four start/end date
and odometer equalities, and `fills_count` is the number of partial fills
strictly between the bounding full fills plus one for the ending full
fill. -/
theorem cycles_fills_count (rows : List FuelRecord) :
    ∀ c ∈ cycles rows,
      ∃ s ms e, CycleBounds rows s ms e ∧
        c.start_date = s.date ∧ c.start_odo = s.odometer_km ∧
        c.end_date = e.date ∧ c.end_odo = e.odometer_km ∧
        c.fills_count = ms.length + 1 := by
  intro c hc
  obtain ⟨s, ms, e, hb, hceq⟩ := cycles_bounds rows c hc
  subst hceq
  obtain ⟨h1, h2, h3, h4, _, _, _, h8⟩ := mkCycle_fields s ms e
  exact ⟨s, ms, e, hb, h1, h2, h3, h4, h8⟩

/-- Witness for claim C9 at the spec's end-to-end example 1. -/
theorem cycles_fills_count_witness :
    ∃ s ms e, CycleBounds exRows1 s ms e ∧
      exCycle1.start_date = s.date ∧ exCycle1.start_odo = s.odometer_km ∧
      exCycle1.end_date = e.date ∧ exCycle1.end_odo = e.odometer_km ∧
      exCycle1.fills_count = ms.length + 1 :=
  cycles_fills_count exRows1 exCycle1 (by decide)

/-! ### Consecutive cycles chain at their boundaries (claim C10) -/

lemma cyclesFrom_head_start (rest : List FuelRecord) :
    ∀ (a : FuelRecord) (mids : List FuelRecord) (c : Cycle),
      (cyclesFrom a mids rest).head? = some c →
      c.start_date = a.date ∧ c.start_odo = a.odometer_km := by
  induction rest with
  | nil => intro a mids c hc; simp [cyclesFrom] at hc
  | cons r rest ih =>
    intro a mids c hc
    by_cases hr : r.full_fill
    · rw [cyclesFrom, if_pos hr, List.head?_cons] at hc
      have hc2 : c = mkCycle a (mids ++ [r]) := by
        injection hc with h
        exact h.symm
      rw [hc2]
      simp [mkCycle]
    · rw [cyclesFrom, if_neg hr] at hc
      exact ih a (mids ++ [r]) c hc

lemma cyclesFrom_chain (rest : List FuelRecord) :
    ∀ (a : FuelRecord) (mids : List FuelRecord) (k : Nat) (ci cj : Cycle),
      (cyclesFrom a mids rest)[k]? = some ci →
      (cyclesFrom a mids rest)[k + 1]? = some cj →
      ci.end_date = cj.start_date ∧ ci.end_odo = cj.start_odo := by
  induction rest with
  | nil => intro a mids k ci cj h1 _; simp [cyclesFrom] at h1
  | cons r rest ih =>
    intro a mids k ci cj h1 h2
    by_cases hr : r.full_fill
    · rw [cyclesFrom, if_pos hr] at h1 h2
      cases k with
      | zero =>
        rw [List.getElem?_cons_zero] at h1
        have hci : ci = mkCycle a (mids ++ [r]) := by
          injection h1 with h
          exact h.symm
        rw [List.getElem?_cons_succ] at h2
        have hhead : (cyclesFrom r [] rest).head? = some cj := by
          cases hL : cyclesFrom r [] rest with
          | nil => rw [hL] at h2; simp at h2
          | cons c0 L2 =>
            rw [hL] at h2
            rw [List.getElem?_cons_zero] at h2
            rw [List.head?_cons, h2]
        have hstart := cyclesFrom_head_start rest r [] cj hhead
        rw [hci]
        constructor
        · rw [hstart.1]; simp [mkCycle, getLastD_append_single]
        · rw [hstart.2]; simp [mkCycle, getLastD_append_single]
      | succ k =>
        rw [List.getElem?_cons_succ] at h1 h2
        exact ih r [] k ci cj h1 h2
    · rw [cyclesFrom, if_neg hr] at h1 h2
      exact ih a (mids ++ [r]) k ci cj h1 h2

lemma cyclesRec_chain (rows : List FuelRecord) :
    ∀ (k : Nat) (ci cj : Cycle),
      (cyclesRec rows)[k]? = some ci → (cyclesRec rows)[k + 1]? = some cj →
      ci.end_date = cj.start_date ∧ ci.end_odo = cj.start_odo := by
  induction rows with
  | nil => intro k ci cj h1 _; simp [cyclesRec] at h1
  | cons r rest ih =>
    intro k ci cj h1 h2
    by_cases hr : r.full_fill
    · rw [cyclesRec, if_pos hr] at h1 h2
      exact cyclesFrom_chain rest r [] k ci cj h1 h2
    · rw [cyclesRec, if_neg hr] at h1 h2
      exact ih k ci cj h1 h2

/-- Claim C10: consecutive emitted cycles chain at their boundaries —
cycle `k`'s end date and end odometer equal cycle `k+1`'s start date and
start odometer — and every cycle's start and end data come from full-fill
records of the input. -/
theorem cycles_chain (rows : List FuelRecord) :
    (∀ (k : Nat) (ci cj : Cycle),
        (cycles rows)[k]? = some ci → (cycles rows)[k + 1]? = some cj →
        ci.end_date = cj.start_date ∧ ci.end_odo = cj.start_odo) ∧
      ∀ c ∈ cycles rows,
        (∃ s ∈ rows, s.full_fill = true ∧
          c.start_date = s.date ∧ c.start_odo = s.odometer_km) ∧
        (∃ e ∈ rows, e.full_fill = true ∧
          c.end_date = e.date ∧ c.end_odo = e.odometer_km) := by
  constructor
  · intro k ci cj h1 h2
    rw [cycles_eq] at h1 h2
    exact cyclesRec_chain rows k ci cj h1 h2
  · intro c hc
    obtain ⟨s, ms, e, ⟨⟨pre, post, hdecomp⟩, hs, he, _⟩, hceq⟩ := cycles_bounds rows c hc
    subst hceq
    obtain ⟨h1, h2, h3, h4, _⟩ := mkCycle_fields s ms e
    refine ⟨⟨s, ?_, hs, h1, h2⟩, ⟨e, ?_, he, h3, h4⟩⟩
    · rw [hdecomp]; simp
    · rw [hdecomp]; simp

/-- The first cycle reconstructed from `rowsThreeFulls`. -/
def threeFullsCycle1 : Cycle :=
  { start_date := ⟨2025, 1, 1⟩, end_date := ⟨2025, 1, 10⟩, start_odo := 0, end_odo := 100,
    distance_km := 100, liters_used := 20, l_per_100km := some 20,
    cost_total_sek := 40, cost_per_km_sek := some (2/5), fills_count := 1 }

/-- The second cycle reconstructed from `rowsThreeFulls`. -/
def threeFullsCycle2 : Cycle :=
  { start_date := ⟨2025, 1, 10⟩, end_date := ⟨2025, 2, 5⟩, start_odo := 100, end_odo := 300,
    distance_km := 200, liters_used := 30, l_per_100km := some 15,
    cost_total_sek := 30, cost_per_km_sek := some (3/20), fills_count := 1 }

example : cycles rowsThreeFulls = [threeFullsCycle1, threeFullsCycle2] := by decide

/-- Witness for claim C10 at a three-full-fill input with two cycles. -/
theorem cycles_chain_witness :
    (threeFullsCycle1.end_date = threeFullsCycle2.start_date ∧
        threeFullsCycle1.end_odo = threeFullsCycle2.start_odo) ∧
      ((∃ s ∈ rowsThreeFulls, s.full_fill = true ∧
          threeFullsCycle1.start_date = s.date ∧
          threeFullsCycle1.start_odo = s.odometer_km) ∧
        (∃ e ∈ rowsThreeFulls, e.full_fill = true ∧
          threeFullsCycle1.end_date = e.date ∧
          threeFullsCycle1.end_odo = e.odometer_km)) :=
  ⟨(cycles_chain rowsThreeFulls).1 0 threeFullsCycle1 threeFullsCycle2 (by decide) (by decide),
    (cycles_chain rowsThreeFulls).2 threeFullsCycle1 (by decide)⟩

/-- Claim C1: for every input row sequence, the number of cycles emitted by
the reconstructor equals `max 0 (full fill count - 1)`; in particular an
input with at most one full fill yields no cycle at all. -/
theorem cycles_count (rows : List FuelRecord) :
    ((cycles rows).length : ℤ) =
        max 0 ((rows.countP (fun r => r.full_fill) : ℤ) - 1) ∧
      (rows.countP (fun r => r.full_fill) ≤ 1 → cycles rows = []) := by
  have h : (cycles rows).length = rows.countP (fun r => r.full_fill) - 1 := by
    rw [cycles_eq]; exact length_cyclesRec rows
  constructor
  · rw [h]; omega
  · intro hle
    have hz : (cycles rows).length = 0 := by omega
    exact List.length_eq_zero.mp hz

/-- Witness for claim C1 at a concrete one-full-fill input. -/
theorem cycles_count_witness :
    ((cycles [⟨⟨2025, 1, 1⟩, 1000, 40, 19, true, ""⟩]).length : ℤ) =
        max 0 (([(⟨⟨2025, 1, 1⟩, 1000, 40, 19, true, ""⟩ : FuelRecord)].countP
          (fun r => r.full_fill) : ℤ) - 1) ∧
      cycles [⟨⟨2025, 1, 1⟩, 1000, 40, 19, true, ""⟩] = [] :=
  ⟨(cycles_count [⟨⟨2025, 1, 1⟩, 1000, 40, 19, true, ""⟩]).1,
    (cycles_count [⟨⟨2025, 1, 1⟩, 1000, 40, 19, true, ""⟩]).2 (by decide)⟩

/-! ### `stats` crashes when no cycle has a defined rate (claim C5) -/

/-- Claim C5 fails on the code: for the input with two full fills at the
same odometer every reconstructed cycle has an unavailable rate, and
`stats` raises an unhandled exception instead of reporting the aggregate
as unavailable (a `TypeError` formatting the latest cycle's `None` rate
on line 156; had that print been reached past, the mean on line 160 would
divide by `len(v) = 0`). -/
theorem stats_crash_on_all_degenerate :
    cycles rowsSameOdo = [sameOdoCycle] ∧
      sameOdoCycle.l_per_100km = none ∧
      2 ≤ rowsSameOdo.length ∧
      stats_core rowsSameOdo = StatsOutcome.crashNoneFormat := by
  decide

/-! ### The overall aggregate (claim C6) -/

lemma mkCycle_rates_paired (s : FuelRecord) (rest : List FuelRecord) :
    (mkCycle s rest).l_per_100km.isSome = (mkCycle s rest).cost_per_km_sek.isSome := by
  simp only [mkCycle]
  split
  · simp
  · simp

lemma pairedRatesOnCycles (rows : List FuelRecord) :
    ∀ c ∈ cycles rows, c.l_per_100km.isSome = c.cost_per_km_sek.isSome := by
  intro c hc
  obtain ⟨s, ms, e, _, hceq⟩ := cycles_bounds rows c hc
  subst hceq
  exact mkCycle_rates_paired s (ms ++ [e])

lemma sum_getD_eq_filterMap (f : Cycle → Option ℚ) :
    ∀ l : List Cycle, (∀ c ∈ l, (f c).isSome) →
      (l.map (fun c => (f c).getD 0)).sum = (l.filterMap f).sum := by
  intro l
  induction l with
  | nil => intro _; simp
  | cons c l ih =>
    intro h
    obtain ⟨q, hq⟩ := Option.isSome_iff_exists.mp (h c (List.mem_cons_self c l))
    simp [hq, ih (fun x hx => h x (List.mem_cons_of_mem c hx))]

/-- Claim C6: when `stats` produces an aggregate, the average consumption
is the arithmetic mean of `l_per_100km` over exactly the cycles with a
defined rate (mean of per-cycle rates), the average cost per km is the
mean of those cycles' `cost_per_km_sek`, and the three totals are plain
sums over that same filtered cycle set. -/
theorem stats_aggregate (rows : List FuelRecord) (latest : Cycle)
    (a1 a2 t1 t2 t3 : ℚ)
    (h : stats_core rows = StatsOutcome.ok latest a1 a2 t1 t2 t3) :
    a1 = ((definedCycles rows).filterMap (fun c => c.l_per_100km)).sum /
        ((definedCycles rows).length : ℚ) ∧
      a2 = ((definedCycles rows).filterMap (fun c => c.cost_per_km_sek)).sum /
        ((definedCycles rows).length : ℚ) ∧
      t1 = ((definedCycles rows).map (fun c => c.distance_km)).sum ∧
      t2 = ((definedCycles rows).map (fun c => c.liters_used)).sum ∧
      t3 = ((definedCycles rows).map (fun c => c.cost_total_sek)).sum := by
  have hl100 : ∀ c ∈ definedCycles rows, c.l_per_100km.isSome := by
    intro c hc
    simp only [definedCycles] at hc
    exact (List.mem_filter.mp hc).2
  have hcost : ∀ c ∈ definedCycles rows, c.cost_per_km_sek.isSome := by
    intro c hc
    have hc2 : c ∈ (cycles rows).filter (fun c => c.l_per_100km.isSome) := by
      simpa [definedCycles] using hc
    have hmem : c ∈ cycles rows := (List.mem_filter.mp hc2).1
    rw [← pairedRatesOnCycles rows c hmem]
    exact hl100 c hc
  simp only [stats_core] at h
  split at h
  · exact StatsOutcome.noConfusion h
  · split at h
    · exact StatsOutcome.noConfusion h
    · split at h
      · exact StatsOutcome.noConfusion h
      · split at h
        · exact StatsOutcome.noConfusion h
        · injection h with hL h1 h2 h3 h4 h5
          subst h1 h2 h3 h4 h5
          have hdef :
              (cycles rows).filter (fun c => c.l_per_100km.isSome) = definedCycles rows := rfl
          rw [hdef]
          refine ⟨?_, ?_, rfl, rfl, rfl⟩
          · rw [sum_getD_eq_filterMap (fun c => c.l_per_100km) (definedCycles rows) hl100]
          · rw [sum_getD_eq_filterMap (fun c => c.cost_per_km_sek) (definedCycles rows) hcost]

/-- Witness for claim C6 at the three-full-fill input: mean consumption
`(20 + 15) / 2`, mean cost rate `(2/5 + 3/20) / 2`, totals `300`, `50`,
`70`. -/
theorem stats_aggregate_witness :
    (35/2 : ℚ) = ((definedCycles rowsThreeFulls).filterMap (fun c => c.l_per_100km)).sum /
        ((definedCycles rowsThreeFulls).length : ℚ) ∧
      (11/40 : ℚ) = ((definedCycles rowsThreeFulls).filterMap
          (fun c => c.cost_per_km_sek)).sum /
        ((definedCycles rowsThreeFulls).length : ℚ) ∧
      (300 : ℚ) = ((definedCycles rowsThreeFulls).map (fun c => c.distance_km)).sum ∧
      (50 : ℚ) = ((definedCycles rowsThreeFulls).map (fun c => c.liters_used)).sum ∧
      (70 : ℚ) = ((definedCycles rowsThreeFulls).map (fun c => c.cost_total_sek)).sum :=
  stats_aggregate rowsThreeFulls threeFullsCycle2 (35/2) (11/40) 300 50 70 (by decide)

/-! ### Monthly aggregates (claims C7 and C8) -/

lemma month_core_foldl (y m : Nat) (rows : List FuelRecord) :
    ∀ (a b : ℚ) (n : Nat),
      rows.foldl
          (fun acc r =>
            if r.date.year = y ∧ r.date.month = m then
              (acc.1 + r.liters, acc.2.1 + r.liters * r.price_per_liter_sek, acc.2.2 + 1)
            else acc)
          (a, b, n) =
        (a + ((rows.filter (fun r => r.date.year = y ∧ r.date.month = m)).map
            (fun r => r.liters)).sum,
          b + ((rows.filter (fun r => r.date.year = y ∧ r.date.month = m)).map
            (fun r => r.liters * r.price_per_liter_sek)).sum,
          n + (rows.filter (fun r => r.date.year = y ∧ r.date.month = m)).length) := by
  induction rows with
  | nil => intro a b n; simp
  | cons r rest ih =>
    intro a b n
    by_cases hr : r.date.year = y ∧ r.date.month = m
    · rw [List.foldl_cons, if_pos hr, ih]
      simp [List.filter_cons, hr, add_assoc, Nat.add_comm, Nat.add_left_comm]
    · rw [List.foldl_cons, if_neg hr, ih]
      simp [List.filter_cons, hr]

/-- Claim C7: the monthly aggregate of `month` is computed from the raw
records alone — over every record (full or partial) whose date falls in
the target month, it is the sum of liters, the sum of `liters * price`,
and the count of fills, independently of cycle boundaries. -/
theorem month_totals (rows : List FuelRecord) (y m : Nat) :
    month_core rows y m =
      (((rows.filter (fun r => r.date.year = y ∧ r.date.month = m)).map
          (fun r => r.liters)).sum,
        ((rows.filter (fun r => r.date.year = y ∧ r.date.month = m)).map
          (fun r => r.liters * r.price_per_liter_sek)).sum,
        (rows.filter (fun r => r.date.year = y ∧ r.date.month = m)).length) := by
  have h := month_core_foldl y m rows 0 0 0
  simpa [month_core] using h

/-- Claim C8: the monthly distance estimate of `month` equals the sum of
`distance_km` over exactly the cycles whose `end_date` falls in the
target month (a month-spanning cycle contributes all of its distance to
its end month). -/
theorem month_distance (rows : List FuelRecord) (y m : Nat) :
    month_km_estimate rows y m =
      (((cycles rows).filter
          (fun c => c.end_date.year = y ∧ c.end_date.month = m)).map
        (fun c => c.distance_km)).sum := by
  suffices h : ∀ (l : List Cycle) (init : ℚ),
      l.foldl
          (fun acc c =>
            if c.end_date.year = y ∧ c.end_date.month = m then acc + c.distance_km else acc)
          init =
        init + ((l.filter (fun c => c.end_date.year = y ∧ c.end_date.month = m)).map
          (fun c => c.distance_km)).sum by
    simpa [month_km_estimate] using h (cycles rows) 0
  intro l
  induction l with
  | nil => intro init; simp
  | cons c l ih =>
    intro init
    by_cases hc : c.end_date.year = y ∧ c.end_date.month = m
    · rw [List.foldl_cons, if_pos hc, ih]
      simp [List.filter_cons, hc, add_assoc]
    · rw [List.foldl_cons, if_neg hc, ih]
      simp [List.filter_cons, hc]

end FuelLog
